import Mathlib

set_option autoImplicit false

namespace SoloQ

/-!
Shallow embedding of the Riot-API access and aggregation pipeline of
src/src/scripts_soloq.py: the retrying fetcher (get_ids), the cached
identity hydration (hydrate_players_accounts), the three per-account
stats operations, the rank parser/comparator (_parse_elo, max_elo), the
report renderer (format_players_report) and the per-player best-rank
aggregation slice of build_player_rows.
-/

/-- One scripted transport event: what a single requests.get call yields.
Either an HTTP response (status code, optional Retry-After header already
read as a number, parsed JSON body of type A) or a network-level failure
(requests.Timeout or requests.ConnectionError). -/
inductive TransportEv (A : Type) where
  | resp (status : Nat) (retryAfter : Option ℚ) (body : A)
  | netFail
deriving Repr, DecidableEq

/-- Errors get_ids can raise: the ValueError for a label with no usable
tag, the non-retryable RuntimeError carrying the HTTP status, and the
final RuntimeError after exhausting all attempts, wrapping (from last_exc)
the attempt index of the last network-level failure when one occurred. -/
inductive FetchError where
  | tagMissing
  | apiError (status : Nat)
  | failedAfter (retries : Nat) (lastNetFail : Option Nat)
deriving Repr, DecidableEq

instance exceptDecEq {E A : Type} [DecidableEq E] [DecidableEq A] :
    DecidableEq (Except E A) := fun x y =>
  match x, y with
  | .ok a, .ok b =>
    if h : a = b then isTrue (by rw [h]) else isFalse (fun hh => h (by injection hh))
  | .error a, .error b =>
    if h : a = b then isTrue (by rw [h]) else isFalse (fun hh => h (by injection hh))
  | .ok _, .error _ => isFalse (fun hh => by injection hh)
  | .error _, .ok _ => isFalse (fun hh => by injection hh)

/-- Trace of a get_ids run: the outcome, the number of HTTP attempts
actually made, and the time.sleep durations in chronological order. -/
structure FetchTrace (A : Type) where
  result : Except FetchError A
  attempts : Nat
  sleeps : List ℚ
deriving Repr, DecidableEq

/-- Sleep before retrying a 429: the Retry-After hint when present,
otherwise min(2 ** attempt, 60). -/
def sleep429 (retryAfter : Option ℚ) (attempt : Nat) : ℚ :=
  retryAfter.getD (min ((2 : ℚ) ^ attempt) 60)

/-- Sleep before retrying a transient failure: min(backoff ** attempt, 30). -/
def sleepBackoff (backoff : ℚ) (attempt : Nat) : ℚ :=
  min (backoff ^ attempt) 30

/-- Statuses the get_ids loop retries with backoff: 500, 502, 503, 504. -/
def retryable5xx (status : Nat) : Bool :=
  status = 500 || status = 502 || status = 503 || status = 504

/-- The retry loop of get_ids, lines 71-99: for attempt in 1..retries,
a 200 returns the body, a 429 sleeps per sleep429 and retries, a
500/502/503/504 sleeps per sleepBackoff and retries, any other status
raises at once, a timeout or connection error is remembered in last_exc,
sleeps per sleepBackoff and retries; falling out of the loop raises
the failed-after error. fuel counts the attempts still allowed. -/
def fetchGo {A : Type} (transport : Nat → TransportEv A) (retries : Nat) (backoff : ℚ) :
    Nat → Nat → Option Nat → List ℚ → FetchTrace A
  | 0, _, lastExc, sleeps => ⟨.error (.failedAfter retries lastExc), retries, sleeps.reverse⟩
  | fuel + 1, attempt, lastExc, sleeps =>
    match transport attempt with
    | .netFail =>
        fetchGo transport retries backoff fuel (attempt + 1) (some attempt)
          (sleepBackoff backoff attempt :: sleeps)
    | .resp status retryAfter body =>
        if status = 200 then ⟨.ok body, attempt, sleeps.reverse⟩
        else if status = 429 then
          fetchGo transport retries backoff fuel (attempt + 1) lastExc
            (sleep429 retryAfter attempt :: sleeps)
        else if retryable5xx status then
          fetchGo transport retries backoff fuel (attempt + 1) lastExc
            (sleepBackoff backoff attempt :: sleeps)
        else ⟨.error (.apiError status), attempt, sleeps.reverse⟩

/-- Split a char list at its first '#': (part before, part after). -/
def splitHash : List Char → List Char × List Char
  | [] => ([], [])
  | c :: rest =>
    if c = '#' then ([], rest)
    else
      let p := splitHash rest
      (c :: p.1, p.2)

/-- The tag handling at the top of get_ids, lines 55-59: when tag_line is
None and game_name contains '#', split once at the first '#'; then a
missing or empty tag raises ValueError (modelled as none). -/
def split_label (game_name : String) (tag_line : Option String) : Option (String × String) :=
  match tag_line with
  | some t => if t = "" then none else some (game_name, t)
  | none =>
    if game_name.toList.contains '#' then
      let p := splitHash game_name.toList
      if p.2 = [] then none else some (String.mk p.1, String.mk p.2)
    else none

/-- get_ids, lines 40-99, over a scripted transport: resolve the tag
(ValueError when impossible), then run the retry loop starting at
attempt 1 with fuel = retries and no remembered network failure. -/
def get_ids {A : Type} (game_name : String) (tag_line : Option String)
    (transport : Nat → TransportEv A) (retries : Nat) (backoff : ℚ) : FetchTrace A :=
  match split_label game_name tag_line with
  | none => ⟨.error .tagMissing, 0, []⟩
  | some _ => fetchGo transport retries backoff retries 1 none []

/-- The three fields hydration reads from a resolved Riot account payload
(a field the JSON object lacks is none). -/
structure IdsDict where
  gameName : Option String
  tagLine : Option String
  puuid : Option String
deriving Repr, DecidableEq

/-- A value stored in the identity cache JSON: either not a JSON object at
all, or an object carrying the payload fields. -/
inductive CacheVal where
  | notDict
  | dict (d : IdsDict)
deriving Repr, DecidableEq

/-- The in-memory identity cache: insertion-ordered key/value pairs, as a
loaded JSON object. -/
abbrev Cache := List (String × CacheVal)

/-- Python dict lookup cache.get(key). -/
def cacheGet : Cache → String → Option CacheVal
  | [], _ => none
  | (k0, v0) :: rest, k => if k0 = k then some v0 else cacheGet rest k

/-- Python dict assignment cache[key] = v: replace in place, or append. -/
def cacheSet : Cache → String → CacheVal → Cache
  | [], k, v => [(k, v)]
  | (k0, v0) :: rest, k, v =>
    if k0 = k then (k0, v) :: rest else (k0, v0) :: cacheSet rest k v

/-- Python truthiness of an optional string field: not None and not empty. -/
def truthyStr : Option String → Bool
  | none => false
  | some s => s != ""

/-- Errors hydrate_players_accounts can raise: the missing-account_name
ValueError (line 139), the tag-split ValueError propagated out of get_ids
(line 59), and a propagated fetch failure. -/
inductive HydrateError where
  | missingName (player : String)
  | resolutionError (label : String)
  | fetchFailed (e : FetchError)
deriving Repr, DecidableEq

/-- The identity network behind get_ids as hydration sees it: what a
resolution of a split (name, tag) produces. -/
abbrev IdNet := String → String → Except FetchError IdsDict

/-- One hydrated account entry, lines 148-155. -/
structure HydratedAccount where
  account_name : String
  game_name : Option String
  tag_line : Option String
  puuid : Option String
deriving Repr, DecidableEq

/-- Build the entry appended to hydrated[player] for one account. -/
def mkHydrated (label : String) (d : IdsDict) (includePuuid : Bool) : HydratedAccount :=
  ⟨label, d.gameName, d.tagLine, if includePuuid then d.puuid else none⟩

/-- The cache-hit test of lines 143-144: the stored value is used only when
it is a JSON object whose puuid field is truthy; the payload otherwise none. -/
def cacheHit : Option CacheVal → Option IdsDict
  | some (.dict d) => if truthyStr d.puuid then some d else none
  | _ => none

/-- The per-account body of the hydration loop, lines 136-155: require a
truthy account_name, use the cache entry at "region:label" when cacheHit
accepts it, otherwise resolve over the network (tag split first, its
ValueError propagating and aborting the run) and write the result back.
Returns the hydrated entry, the updated cache, and the number of network
resolutions made (0 or 1). -/
def hydrate_account (net : IdNet) (region : String) (includePuuid : Bool)
    (player : String) (cache : Cache) (label : String) :
    Except HydrateError (HydratedAccount × Cache × Nat) :=
  if label = "" then .error (.missingName player)
  else
    match cacheHit (cacheGet cache (region ++ ":" ++ label)) with
    | some d => .ok (mkHydrated label d includePuuid, cache, 0)
    | none =>
      match split_label label none with
      | none => .error (.resolutionError label)
      | some nt =>
        match net nt.1 nt.2 with
        | .error e => .error (.fetchFailed e)
        | .ok d => .ok (mkHydrated label d includePuuid,
            cacheSet cache (region ++ ":" ++ label) (.dict d), 1)

/-- The inner loop of hydration over one player's account list, threading
the cache and summing network resolutions; any error aborts. -/
def hydrate_accounts (net : IdNet) (region : String) (includePuuid : Bool)
    (player : String) :
    Cache → List String → Except HydrateError (List HydratedAccount × Cache × Nat)
  | cache, [] => .ok ([], cache, 0)
  | cache, label :: rest =>
    match hydrate_account net region includePuuid player cache label with
    | .error e => .error e
    | .ok r1 =>
      match hydrate_accounts net region includePuuid player r1.2.1 rest with
      | .error e => .error e
      | .ok r2 => .ok (r1.1 :: r2.1, r2.2.1, r1.2.2 + r2.2.2)

/-- The outer loop of hydration over the roster's players in order. -/
def hydrate_players (net : IdNet) (region : String) (includePuuid : Bool) :
    Cache → List (String × List String) →
    Except HydrateError (List (String × List HydratedAccount) × Cache × Nat)
  | cache, [] => .ok ([], cache, 0)
  | cache, pa :: rest =>
    match hydrate_accounts net region includePuuid pa.1 cache pa.2 with
    | .error e => .error e
    | .ok r1 =>
      match hydrate_players net region includePuuid r1.2.1 rest with
      | .error e => .error e
      | .ok r2 => .ok ((pa.1, r1.1) :: r2.1, r2.2.1, r1.2.2 + r2.2.2)

/-- hydrate_players_accounts, lines 116-159, over an in-memory cache (the
cache file load/save of lines 102-113 is outside the model): walk the roster,
hydrating every account of every player; any raised error aborts the whole
run with no hydrated output. Returns the hydrated roster, the final cache,
and the total number of network resolutions. -/
def hydrate_players_accounts (net : IdNet) (region : String) (includePuuid : Bool)
    (cache : Cache) (roster : List (String × List String)) :
    Except HydrateError (List (String × List HydratedAccount) × Cache × Nat) :=
  hydrate_players net region includePuuid cache roster

/-- One entry of the league-entries endpoint response as get_current_elo
reads it. -/
structure LeagueEntry where
  queueType : Option String
  tier : Option String
  rank : Option String
  leaguePoints : Option Nat
deriving Repr, DecidableEq

/-- Errors of the three per-account stats operations: the missing-puuid
ValueError and the requests.HTTPError from raise_for_status. -/
inductive OpError where
  | valueError
  | httpError (status : Nat)
deriving Repr, DecidableEq

/-- Python str() of an optional string: None prints as "None". -/
def pyStr : Option String → String
  | none => "None"
  | some s => s

/-- Python str() of an optional integer: None prints as "None". -/
def pyStrNat : Option Nat → String
  | none => "None"
  | some n => toString n

/-- The f-string of get_current_elo line 216: tier, blank, rank,
" - ", league points, " LP". -/
def rank_string (tier rank : Option String) (lp : Option Nat) : String :=
  pyStr tier ++ " " ++ pyStr rank ++ " - " ++ pyStrNat lp ++ " LP"

/-- count_soloq, lines 162-187, over a scripted transport for the match-ids
endpoint: require a truthy puuid (else ValueError), make exactly one GET
(call index 0), raise_for_status on a 4xx/5xx response, else return the
length of the returned match-id list. No retry of any kind. -/
def count_soloq (puuid : Option String) (transport : Nat → Nat × List String) :
    Except OpError Nat :=
  if !truthyStr puuid then .error .valueError
  else
    let r := transport 0
    if 400 ≤ r.1 ∧ r.1 < 600 then .error (.httpError r.1)
    else .ok r.2.length

/-- get_current_elo, lines 189-217, over a scripted transport for the league
entries endpoint: require a truthy puuid (else ValueError), make exactly one
GET, raise_for_status on a 4xx/5xx response, else format the first entry
whose queueType is RANKED_SOLO_5x5, or return "Unranked" when none matches.
No retry of any kind. -/
def get_current_elo (puuid : Option String) (transport : Nat → Nat × List LeagueEntry) :
    Except OpError String :=
  if !truthyStr puuid then .error .valueError
  else
    let r := transport 0
    if 400 ≤ r.1 ∧ r.1 < 600 then .error (.httpError r.1)
    else
      match r.2.find? (fun e => e.queueType == some "RANKED_SOLO_5x5") with
      | some e => .ok (rank_string e.tier e.rank e.leaguePoints)
      | none => .ok "Unranked"

/-- _format_ts_ms, lines 315-320: a missing or zero millisecond timestamp
renders as "No games"; the timezone/strftime formatting of a present one is
kept abstract as fmt. -/
def format_ts_ms (fmt : Nat → String) (ms : Option Nat) : String :=
  if ms.getD 0 = 0 then "No games" else fmt (ms.getD 0)

/-- get_last_game_time, lines 322-340, over scripted transports for the two
endpoints it reads (match-id listing, then match detail): a falsy puuid
returns "No games" with no call; each response goes through
raise_for_status; an empty id list returns "No games"; otherwise the match
detail's gameStartTimestamp is formatted. No retry of any kind. -/
def get_last_game_time (puuid : Option String)
    (idsTransport : Nat → Nat × List String)
    (matchTransport : Nat → Nat × Option Nat) (fmt : Nat → String) :
    Except OpError String :=
  if !truthyStr puuid then .ok "No games"
  else
    let r1 := idsTransport 0
    if 400 ≤ r1.1 ∧ r1.1 < 600 then .error (.httpError r1.1)
    else if r1.2 = [] then .ok "No games"
    else
      let r2 := matchTransport 0
      if 400 ≤ r2.1 ∧ r2.1 < 600 then .error (.httpError r2.1)
      else .ok (format_ts_ms fmt r2.2)

/-- The ten tiers, lowest to highest, lines 221-224. -/
def TIERS : List String :=
  ["IRON", "BRONZE", "SILVER", "GOLD", "PLATINUM",
   "EMERALD", "DIAMOND", "MASTER", "GRANDMASTER", "CHALLENGER"]

/-- TIER_RANK, line 225: the index of a tier name in TIERS. -/
def TIER_RANK (t : String) : Nat :=
  TIERS.findIdx (fun x => x == t)

/-- DIV_MAP, line 226, on the captured division group. -/
def DIV_MAP (g : List Char) : Nat :=
  if g = ['V'] then 0
  else if g = ['I', 'V'] then 1
  else if g = ['I', 'I', 'I'] then 2
  else if g = ['I', 'I'] then 3
  else if g = ['I'] then 4
  else 0

/-- Python substring membership: needle in hay. -/
def containsSub (needle hay : List Char) : Bool :=
  hay.tails.any (fun t => needle.isPrefixOf t)

/-- Digits of a decimal literal folded to the number they denote. -/
def natOfDigits (l : List Char) : Nat :=
  l.foldl (fun a c => 10 * a + (c.toNat - 48)) 0

/-- Try the LP pattern at one position: an opening parenthesis, one or more
digits, optional whitespace, then the literal LP and a closing parenthesis,
as the regex on line 238 demands. The digit and whitespace classes are
disjoint from the following literals, so the greedy match is this scan. -/
def matchLPAt : List Char → Option Nat
  | '(' :: rest =>
    let digits := rest.takeWhile Char.isDigit
    if digits = [] then none
    else
      match (rest.dropWhile Char.isDigit).dropWhile Char.isWhitespace with
      | 'L' :: 'P' :: ')' :: _ => some (natOfDigits digits)
      | _ => none
  | _ => none

/-- re.search of the LP pattern: the leftmost position where it matches. -/
def findLP : List Char → Option Nat
  | [] => none
  | c :: rest =>
    match matchLPAt (c :: rest) with
    | some n => some n
    | none => findLP rest

/-- The tier search loop of lines 242-246: the first tier of TIERS that
occurs as a substring, as an index into TIERS. -/
def findTier (su : List Char) : Option Nat :=
  TIERS.findIdx? (fun t => containsSub t.toList su)

/-- A word character for the regex word boundary: alphanumeric or
underscore. -/
def isWordChar (c : Char) : Bool :=
  c.isAlphanum || c = '_'

/-- The division alternatives in the order the regex on line 254 tries
them at each position: I, II, III, IV, V. -/
def divAlts : List (List Char) := [['I'], ['I', 'I'], ['I', 'I', 'I'], ['I', 'V'], ['V']]

/-- Does one alternative match at the head of the remaining input with a
word boundary after it? -/
def altMatches (alt su : List Char) : Bool :=
  alt.isPrefixOf su &&
    (match su.drop alt.length with
     | [] => true
     | c :: _ => !isWordChar c)

/-- The scan of re.search for the division pattern: walk positions left to
right carrying the previous character; where a word boundary precedes, try
the alternatives in order. Returns the captured group. -/
def findDivGo : Option Char → List Char → Option (List Char)
  | _, [] => none
  | prev, c :: rest =>
    let boundaryOk : Bool :=
      match prev with
      | none => true
      | some p => !isWordChar p
    if boundaryOk then
      match divAlts.find? (fun alt => altMatches alt (c :: rest)) with
      | some alt => some alt
      | none => findDivGo (some c) rest
    else findDivGo (some c) rest

/-- re.search of the word-bounded division pattern over the whole string. -/
def findDiv (su : List Char) : Option (List Char) :=
  findDivGo none su

/-- Python str.strip on a char list: drop whitespace from both ends. -/
def stripChars (l : List Char) : List Char :=
  ((l.dropWhile Char.isWhitespace).reverse.dropWhile Char.isWhitespace).reverse

/-- _parse_elo, lines 229-257: (tier_rank, division_value, lp), with
(-1, -1, -1) for an empty string, a string containing UNRANKED, or a string
naming no tier. The string is uppercased (ASCII) and stripped first; LP
comes from the parenthesized LP pattern (0 when absent); tiers at MASTER
and above get division value 5, others the mapped division group (0 when
absent). -/
def parse_elo (s : String) : Int × Int × Int :=
  if s = "" then (-1, -1, -1)
  else
    let su := stripChars (s.toList.map Char.toUpper)
    if containsSub "UNRANKED".toList su then (-1, -1, -1)
    else
      let lp : Int := ((findLP su).getD 0 : Nat)
      match findTier su with
      | none => (-1, -1, -1)
      | some tr =>
        let dv : Int :=
          if TIER_RANK "MASTER" ≤ tr then 5
          else (((findDiv su).map DIV_MAP).getD 0 : Nat)
        (tr, dv, lp)

/-- The strict comparison behind Python max on the key tuples of line 270:
lexicographic greater-than on (tier_rank, division_value, lp). -/
def keyGT (a b : Int × Int × Int) : Bool :=
  decide (b.1 < a.1) ||
    (decide (a.1 = b.1) &&
      (decide (b.2.1 < a.2.1) || (decide (a.2.1 = b.2.1) && decide (b.2.2 < a.2.2))))

/-- Lexicographic less-or-equal on parsed keys, the ordering the spec
states best results against. -/
def keyLE (a b : Int × Int × Int) : Prop :=
  a.1 < b.1 ∨ (a.1 = b.1 ∧ (a.2.1 < b.2.1 ∨ (a.2.1 = b.2.1 ∧ a.2.2 ≤ b.2.2)))

instance keyLE.decidable (a b : Int × Int × Int) : Decidable (keyLE a b) := by
  unfold keyLE; infer_instance

/-- Python max over a nonempty list keeps the first element whose key no
later element strictly beats. -/
def pyMaxBy (p : (Int × Int × Int) × String) (ps : List ((Int × Int × Int) × String)) :
    (Int × Int × Int) × String :=
  ps.foldl (fun b x => if keyGT x.1 b.1 then x else b) p

/-- max_elo, lines 260-271: keep the inputs whose parsed key has a
non-negative tier rank, paired with their keys; None when nothing is kept,
else the string of the Python max by key. -/
def max_elo (accElos : List String) : Option String :=
  match accElos.filterMap (fun s =>
      let key := parse_elo s
      if 0 ≤ key.1 then some (key, s) else none) with
  | [] => none
  | p :: ps => some (pyMaxBy p ps).2

/-- One report row as format_players_report reads it: the seven cell
values, each either Python None or the str() image of the stored value.
A missing key reads as the default "", that is some "". -/
structure ReportRow where
  player : Option String
  games24 : Option String
  games7 : Option String
  lastGame : Option String
  elo : Option String
  main : Option String
  emoji : Option String
deriving Repr, DecidableEq

/-- The header labels, line 282. -/
def report_headers : List String :=
  ["Player", "Games 24 Hours", "Games 7 days", "Last Game", "Current Elo",
   "Main Account", "Reha happy"]

/-- The cell getters in the column order of line 283. -/
def report_cols : List (ReportRow → Option String) :=
  [fun r => r.player, fun r => r.games24, fun r => r.games7, fun r => r.lastGame,
   fun r => r.elo, fun r => r.main, fun r => r.emoji]

/-- The value measured for column widths, line 290: str(v) unless the cell
is None, which measures as the empty string. -/
def widthVal : Option String → String
  | none => ""
  | some s => s

/-- One column's width, lines 286-292: fold max over the rows starting from
the header length, measuring cells via widthVal. -/
def colWidth (h : String) (get : ReportRow → Option String) (rows : List ReportRow) : Nat :=
  rows.foldl (fun maxw r => max maxw (widthVal (get r)).length) h.length

/-- All seven column widths in order. -/
def report_widths (rows : List ReportRow) : List Nat :=
  (report_headers.zip report_cols).map (fun hc => colWidth hc.1 hc.2 rows)

/-- Python str.ljust: pad on the right with blanks up to the width. -/
def ljust (s : String) (w : Nat) : String :=
  s ++ String.mk (List.replicate (w - s.length) ' ')

/-- Python str.rjust: pad on the left with blanks up to the width. -/
def rjust (s : String) (w : Nat) : String :=
  String.mk (List.replicate (w - s.length) ' ') ++ s

/-- The header line, line 295: headers left-justified to the widths, joined
by two blanks. -/
def header_line (ws : List Nat) : String :=
  String.intercalate "  " (List.zipWith ljust report_headers ws)

/-- The separator line, line 296: runs of dashes of each width, joined by
two blanks. -/
def sep_line (ws : List Nat) : String :=
  String.intercalate "  " (ws.map (fun w => String.mk (List.replicate w '-')))

/-- One row line, lines 300-310: cells rendered via str(), the two
match-count columns right-justified, the rest left-justified, joined by two
blanks. -/
def row_line (ws : List Nat) (r : ReportRow) : String :=
  String.intercalate "  "
    [ljust (pyStr r.player) (ws.getD 0 0),
     rjust (pyStr r.games24) (ws.getD 1 0),
     rjust (pyStr r.games7) (ws.getD 2 0),
     ljust (pyStr r.lastGame) (ws.getD 3 0),
     ljust (pyStr r.elo) (ws.getD 4 0),
     ljust (pyStr r.main) (ws.getD 5 0),
     ljust (pyStr r.emoji) (ws.getD 6 0)]

/-- format_players_report, lines 276-313: compute the widths, then join the
header line, the separator line and one line per row with newlines. -/
def format_players_report (rows : List ReportRow) : String :=
  String.intercalate "\n"
    ([header_line (report_widths rows), sep_line (report_widths rows)] ++
      rows.map (row_line (report_widths rows)))

/-- Modelled from the claim's words, for comparison with colWidth: a
column's width is the maximum of the header label's length and the length
of every row's rendered cell text, where the rendered text is what the row
line prints (so a None cell measures as "None"). -/
def colWidthSpec (h : String) (get : ReportRow → Option String) (rows : List ReportRow) : Nat :=
  rows.foldl (fun maxw r => max maxw (pyStr (get r)).length) h.length

/-- The claim-side widths of all seven columns. -/
def report_widthsSpec (rows : List ReportRow) : List Nat :=
  (report_headers.zip report_cols).map (fun hc => colWidthSpec hc.1 hc.2 rows)

/-- The per-player rank aggregation slice of build_player_rows: acc_elos
collects each account's get_current_elo result when the call did not raise
and the returned string is truthy, lines 384-390. An input of none stands
for a call that raised. -/
def player_acc_elos (eloResults : List (Option String)) : List String :=
  eloResults.filterMap (fun r =>
    match r with
    | none => none
    | some e => if e = "" then none else some e)

/-- Line 393: the Elo row value is max_elo over the collected strings when
any were collected, else the literal "Unranked"; the result of max_elo may
itself be Python None. -/
def player_best_elo (eloResults : List (Option String)) : Option String :=
  if player_acc_elos eloResults = [] then some "Unranked"
  else max_elo (player_acc_elos eloResults)

/-! Concrete scripted inputs used by witnesses and counterexamples. -/

/-- A transport answering 429 with a Retry-After of 1 on the first attempt
and 200 with body 7 afterwards. -/
def transport429then200 : Nat → TransportEv Nat := fun n =>
  if n = 1 then .resp 429 (some 1) 0 else .resp 200 none 7

/-- A transport answering 503 on every attempt. -/
def transport503 : Nat → TransportEv Nat := fun _ => .resp 503 none 0

/-- A transport failing at the network level on every attempt. -/
def transportNetFail : Nat → TransportEv Nat := fun _ => .netFail

/-- An identity network that always resolves, echoing name and tag. -/
def netOk : IdNet := fun n t => .ok ⟨some n, some t, some "PUUID-1"⟩

/-- A roster whose second player's first account label has no '#'. -/
def rosterOneBad : List (String × List String) :=
  [("alice", ["Good1#TAG"]), ("bob", ["Bad", "Good2#TAG"])]

/-- Match-ids endpoint script: 503 first, then 200 with two ids. -/
def countT503 : Nat → Nat × List String := fun n =>
  if n = 0 then (503, []) else (200, ["m1", "m2"])

/-- League-entries endpoint script: 503 first, then 200 with a solo-queue
entry. -/
def eloT503 : Nat → Nat × List LeagueEntry := fun n =>
  if n = 0 then (503, [])
  else (200, [⟨some "RANKED_SOLO_5x5", some "GOLD", some "IV", some 10⟩])

/-- Match-id listing script for the last-game op: 503 first, then 200. -/
def idsT503 : Nat → Nat × List String := fun n =>
  if n = 0 then (503, []) else (200, ["m1"])

/-- Match detail script: always 200 with a timestamp. -/
def matchT200 : Nat → Nat × Option Nat := fun _ => (200, some 5)

/-- An abstract timestamp formatter for witnesses. -/
def fmtConst : Nat → String := fun _ => "01 Jan - 00:00"

/-- A cache holding one valid entry for the key europe:Name#TAG. -/
def cacheSeeded : Cache :=
  [("europe:Name#TAG", .dict ⟨some "Name", some "TAG", some "P-123"⟩)]

/-! Step lemmas for the retry loop. -/

theorem fetchGo_step_200 {A : Type} (transport : Nat → TransportEv A) (retries : Nat)
    (backoff : ℚ) (fuel attempt : Nat) (lastExc : Option Nat) (sleeps : List ℚ)
    (ra : Option ℚ) (body : A) (h : transport attempt = .resp 200 ra body) :
    fetchGo transport retries backoff (fuel + 1) attempt lastExc sleeps =
      ⟨.ok body, attempt, sleeps.reverse⟩ := by
  simp [fetchGo, h]

theorem fetchGo_step_429 {A : Type} (transport : Nat → TransportEv A) (retries : Nat)
    (backoff : ℚ) (fuel attempt : Nat) (lastExc : Option Nat) (sleeps : List ℚ)
    (ra : Option ℚ) (body : A) (h : transport attempt = .resp 429 ra body) :
    fetchGo transport retries backoff (fuel + 1) attempt lastExc sleeps =
      fetchGo transport retries backoff fuel (attempt + 1) lastExc
        (sleep429 ra attempt :: sleeps) := by
  simp [fetchGo, h]

theorem fetchGo_step_503 {A : Type} (transport : Nat → TransportEv A) (retries : Nat)
    (backoff : ℚ) (fuel attempt : Nat) (lastExc : Option Nat) (sleeps : List ℚ)
    (ra : Option ℚ) (body : A) (h : transport attempt = .resp 503 ra body) :
    fetchGo transport retries backoff (fuel + 1) attempt lastExc sleeps =
      fetchGo transport retries backoff fuel (attempt + 1) lastExc
        (sleepBackoff backoff attempt :: sleeps) := by
  simp [fetchGo, h, retryable5xx]

theorem fetchGo_step_netFail {A : Type} (transport : Nat → TransportEv A) (retries : Nat)
    (backoff : ℚ) (fuel attempt : Nat) (lastExc : Option Nat) (sleeps : List ℚ)
    (h : transport attempt = .netFail) :
    fetchGo transport retries backoff (fuel + 1) attempt lastExc sleeps =
      fetchGo transport retries backoff fuel (attempt + 1) (some attempt)
        (sleepBackoff backoff attempt :: sleeps) := by
  simp [fetchGo, h]

theorem fetchGo_exhaust {A : Type} (transport : Nat → TransportEv A) (retries : Nat)
    (backoff : ℚ) (attempt : Nat) (lastExc : Option Nat) (sleeps : List ℚ) :
    fetchGo transport retries backoff 0 attempt lastExc sleeps =
      ⟨.error (.failedAfter retries lastExc), retries, sleeps.reverse⟩ := rfl

/-- C3: for a scripted transport whose attempt-1 response is a 429 carrying
any Retry-After hint and whose attempt-2 response is a 200, get_ids (the
rate-limited fetch) makes exactly 2 attempts, sleeps once, for the hinted
duration when a hint is present and min(2 ^ attempt, 60) seconds otherwise
(attempt = 1 here), and returns the parsed body of the 200 response. -/
theorem c3_fetch_429_then_200 {A : Type} (gn : String) (tl : Option String)
    (nt : String × String) (transport : Nat → TransportEv A) (retries : Nat)
    (backoff : ℚ) (ra ra2 : Option ℚ) (junk body : A)
    (hsplit : split_label gn tl = some nt) (hr : 2 ≤ retries)
    (h1 : transport 1 = .resp 429 ra junk)
    (h2 : transport 2 = .resp 200 ra2 body) :
    get_ids gn tl transport retries backoff =
      ⟨.ok body, 2, [ra.getD (min ((2 : ℚ) ^ (1 : Nat)) 60)]⟩ := by
  obtain ⟨k, rfl⟩ : ∃ k, retries = k + 2 := ⟨retries - 2, by omega⟩
  unfold get_ids
  rw [hsplit]
  show fetchGo transport (k + 2) backoff (k + 1 + 1) 1 none [] = _
  rw [fetchGo_step_429 transport (k + 2) backoff (k + 1) 1 none [] ra junk h1]
  show fetchGo transport (k + 2) backoff (k + 1) 2 none [sleep429 ra 1] = _
  rw [fetchGo_step_200 transport (k + 2) backoff k 2 none [sleep429 ra 1] ra2 body h2]
  rfl

/-- C3 witness: the concrete scripted transport of transport429then200 with
the default retry budget: two attempts, one sleep of the hinted 1 second,
body 7 returned. -/
theorem c3_fetch_429_then_200_witness :
    get_ids "Name#TAG" none transport429then200 10 (3 / 2 : ℚ) =
      ⟨.ok 7, 2, [(1 : ℚ)]⟩ := by
  have h := c3_fetch_429_then_200 "Name#TAG" none ("Name", "TAG") transport429then200
    10 (3 / 2 : ℚ) (some 1) none 0 7 (by decide) (by omega) rfl rfl
  simpa using h

/-- C4: with retry budget 3, a transport whose every event is an HTTP 503
response makes get_ids fail after exactly 3 attempts with the error stating
the attempt count and wrapping no cause, while a transport whose every
event is a network-level failure fails after exactly 3 attempts wrapping
the last (third) such failure; in both runs each attempt sleeps the
backoff amount. -/
theorem c4_exhausted_retries {A : Type} (gn : String) (tl : Option String)
    (nt : String × String) (transport tnet : Nat → TransportEv A) (backoff : ℚ)
    (ras : Nat → Option ℚ) (bodies : Nat → A)
    (hsplit : split_label gn tl = some nt)
    (h503 : ∀ n, transport n = .resp 503 (ras n) (bodies n))
    (hnet : ∀ n, tnet n = .netFail) :
    get_ids gn tl transport 3 backoff =
      ⟨.error (.failedAfter 3 none), 3,
        [sleepBackoff backoff 1, sleepBackoff backoff 2, sleepBackoff backoff 3]⟩ ∧
    get_ids gn tl tnet 3 backoff =
      ⟨.error (.failedAfter 3 (some 3)), 3,
        [sleepBackoff backoff 1, sleepBackoff backoff 2, sleepBackoff backoff 3]⟩ := by
  constructor
  · unfold get_ids
    rw [hsplit]
    show fetchGo transport 3 backoff (2 + 1) 1 none [] = _
    rw [fetchGo_step_503 transport 3 backoff 2 1 none [] _ _ (h503 1)]
    show fetchGo transport 3 backoff (1 + 1) 2 none _ = _
    rw [fetchGo_step_503 transport 3 backoff 1 2 none _ _ _ (h503 2)]
    show fetchGo transport 3 backoff (0 + 1) 3 none _ = _
    rw [fetchGo_step_503 transport 3 backoff 0 3 none _ _ _ (h503 3)]
    rw [fetchGo_exhaust]
    rfl
  · unfold get_ids
    rw [hsplit]
    show fetchGo tnet 3 backoff (2 + 1) 1 none [] = _
    rw [fetchGo_step_netFail tnet 3 backoff 2 1 none [] (hnet 1)]
    show fetchGo tnet 3 backoff (1 + 1) 2 (some 1) _ = _
    rw [fetchGo_step_netFail tnet 3 backoff 1 2 (some 1) _ (hnet 2)]
    show fetchGo tnet 3 backoff (0 + 1) 3 (some 2) _ = _
    rw [fetchGo_step_netFail tnet 3 backoff 0 3 (some 2) _ (hnet 3)]
    rw [fetchGo_exhaust]
    rfl

/-- C4 witness: the concrete all-503 and all-network-failure transports with
backoff 2: both fail after 3 attempts sleeping 2, 4, 8 seconds, the first
with no wrapped cause and the second wrapping the third failure. -/
theorem c4_exhausted_retries_witness :
    get_ids "Name#TAG" none transport503 3 (2 : ℚ) =
      ⟨.error (.failedAfter 3 none), 3, [2, 4, 8]⟩ ∧
    get_ids "Name#TAG" none transportNetFail 3 (2 : ℚ) =
      ⟨.error (.failedAfter 3 (some 3)), 3, [2, 4, 8]⟩ := by
  have h := c4_exhausted_retries "Name#TAG" none ("Name", "TAG") transport503
    transportNetFail (2 : ℚ) (fun _ => none) (fun _ => 0) (by decide)
    (fun _ => rfl) (fun _ => rfl)
  constructor
  · rw [h.1]
    simp [sleepBackoff]
    norm_num
  · rw [h.2]
    simp [sleepBackoff]
    norm_num

/-! Cache lemmas and the hydration abort behaviour. -/

theorem cacheGet_set_ne (c : Cache) (k k2 : String) (v : CacheVal) (h : k2 ≠ k) :
    cacheGet (cacheSet c k v) k2 = cacheGet c k2 := by
  induction c with
  | nil => simp [cacheSet, cacheGet, Ne.symm h]
  | cons p rest ih =>
    by_cases hk : p.1 = k
    · simp [cacheSet, hk, cacheGet, Ne.symm h]
    · simp [cacheSet, hk, cacheGet, ih]

theorem key_inj (region a b : String) (h : region ++ ":" ++ a = region ++ ":" ++ b) :
    a = b := by
  have hd := congrArg String.data h
  rw [String.data_append, String.data_append] at hd
  exact String.ext (List.append_cancel_left hd)

/-- A successful per-account hydration step never turns the cache entry of
an unsplittable label into a valid hit. -/
theorem hydrate_account_preserves (net : IdNet) (region : String) (inc : Bool)
    (player label a : String) (c c2 : Cache) (h : HydratedAccount) (n : Nat)
    (hsplit : split_label label none = none)
    (hk : hydrate_account net region inc player c a = .ok (h, c2, n))
    (hc : cacheHit (cacheGet c (region ++ ":" ++ label)) = none) :
    cacheHit (cacheGet c2 (region ++ ":" ++ label)) = none := by
  unfold hydrate_account at hk
  by_cases ha : a = ""
  · rw [if_pos ha] at hk
    exact Except.noConfusion hk
  · rw [if_neg ha] at hk
    cases hch : cacheHit (cacheGet c (region ++ ":" ++ a)) with
    | some d =>
      simp only [hch, Except.ok.injEq, Prod.mk.injEq] at hk
      obtain ⟨-, rfl, -⟩ := hk
      exact hc
    | none =>
      cases hsa : split_label a none with
      | none =>
        simp only [hch, hsa] at hk
        exact Except.noConfusion hk
      | some nt =>
        cases hn : net nt.1 nt.2 with
        | error e =>
          simp only [hch, hsa, hn] at hk
          exact Except.noConfusion hk
        | ok d =>
          simp only [hch, hsa, hn, Except.ok.injEq, Prod.mk.injEq] at hk
          obtain ⟨-, hc2, -⟩ := hk
          have hne : label ≠ a := by
            intro he
            rw [he, hsa] at hsplit
            exact Option.noConfusion hsplit
          rw [← hc2, cacheGet_set_ne c _ _ _ (fun he => hne (key_inj region label a he))]
          exact hc

/-- A successful account-list hydration pass preserves the same invariant. -/
theorem hydrate_accounts_preserves (net : IdNet) (region : String) (inc : Bool)
    (player label : String) (hsplit : split_label label none = none) :
    ∀ (accs : List String) (c : Cache) (res : List HydratedAccount × Cache × Nat),
      hydrate_accounts net region inc player c accs = .ok res →
      cacheHit (cacheGet c (region ++ ":" ++ label)) = none →
      cacheHit (cacheGet res.2.1 (region ++ ":" ++ label)) = none := by
  intro accs
  induction accs with
  | nil =>
    intro c res hk hc
    simp only [hydrate_accounts, Except.ok.injEq] at hk
    rw [← hk]
    exact hc
  | cons a rest ih =>
    intro c res hk hc
    cases h1 : hydrate_account net region inc player c a with
    | error e =>
      simp only [hydrate_accounts, h1] at hk
      exact Except.noConfusion hk
    | ok r1 =>
      cases h2 : hydrate_accounts net region inc player r1.2.1 rest with
      | error e =>
        simp only [hydrate_accounts, h1, h2] at hk
        exact Except.noConfusion hk
      | ok r2 =>
        simp only [hydrate_accounts, h1, h2, Except.ok.injEq] at hk
        have hmid := hydrate_account_preserves net region inc player label a c r1.2.1
          r1.1 r1.2.2 hsplit h1 hc
        have hrec := ih r1.2.1 r2 h2 hmid
        rw [← hk]
        exact hrec

/-- An account list containing an unsplittable, not validly cached label
never hydrates successfully. -/
theorem hydrate_accounts_fails (net : IdNet) (region : String) (inc : Bool)
    (player label : String) (hne : label ≠ "")
    (hsplit : split_label label none = none) :
    ∀ (accs : List String) (c : Cache), label ∈ accs →
      cacheHit (cacheGet c (region ++ ":" ++ label)) = none →
      ∀ res, hydrate_accounts net region inc player c accs ≠ .ok res := by
  intro accs
  induction accs with
  | nil => intro c hmem; cases hmem
  | cons a rest ih =>
    intro c hmem hc res hk
    cases h1 : hydrate_account net region inc player c a with
    | error e =>
      simp only [hydrate_accounts, h1] at hk
      exact Except.noConfusion hk
    | ok r1 =>
      rcases List.mem_cons.mp hmem with rfl | hmem2
      · simp [hydrate_account, hne, hc, hsplit] at h1
      · cases h2 : hydrate_accounts net region inc player r1.2.1 rest with
        | error e =>
          simp only [hydrate_accounts, h1, h2] at hk
          exact Except.noConfusion hk
        | ok r2 =>
          have hmid := hydrate_account_preserves net region inc player label a c r1.2.1
            r1.1 r1.2.2 hsplit h1 hc
          exact ih r1.2.1 hmem2 hmid r2 h2

/-- A roster containing a player one of whose account labels is
unsplittable and not validly cached never hydrates successfully. -/
theorem hydrate_players_fails (net : IdNet) (region : String) (inc : Bool)
    (player label : String) (accs : List String) (hne : label ≠ "")
    (hsplit : split_label label none = none) :
    ∀ roster : List (String × List String), (player, accs) ∈ roster → label ∈ accs →
      ∀ c : Cache, cacheHit (cacheGet c (region ++ ":" ++ label)) = none →
        ∀ res, hydrate_players net region inc c roster ≠ .ok res := by
  intro roster
  induction roster with
  | nil => intro hmem; cases hmem
  | cons pa rest ih =>
    intro hmem hacc c hc res hk
    cases h1 : hydrate_accounts net region inc pa.1 c pa.2 with
    | error e =>
      simp only [hydrate_players, h1] at hk
      exact Except.noConfusion hk
    | ok r1 =>
      rcases List.mem_cons.mp hmem with heq | hmem2
      · exact hydrate_accounts_fails net region inc pa.1 label hne hsplit pa.2 c
          (by rw [← heq]; exact hacc) hc r1 h1
      · cases h2 : hydrate_players net region inc r1.2.1 rest with
        | error e =>
          simp only [hydrate_players, h1, h2] at hk
          exact Except.noConfusion hk
        | ok r2 =>
          have hmid := hydrate_accounts_preserves net region inc pa.1 label hsplit pa.2 c
            r1 h1 hc
          exact ih hmem2 hacc r1.2.1 hmid r2 h2

/-- C1 amended: when one account label of one player cannot be split into
name and tag (no '#' and no separate tag, or an empty tag) and its cache
entry is not a valid hit, hydration does not degrade to that account alone:
hydrate_players_accounts raises and the whole run aborts, producing no
hydrated identities for any account of any player. -/
theorem c1_bad_label_aborts_hydration (net : IdNet) (region : String) (inc : Bool)
    (cache : Cache) (roster : List (String × List String))
    (player label : String) (accs : List String)
    (hmem : (player, accs) ∈ roster) (hacc : label ∈ accs) (hne : label ≠ "")
    (hsplit : split_label label none = none)
    (hcache : cacheHit (cacheGet cache (region ++ ":" ++ label)) = none) :
    ∃ e, hydrate_players_accounts net region inc cache roster = .error e := by
  cases hres : hydrate_players_accounts net region inc cache roster with
  | error e => exact ⟨e, rfl⟩
  | ok res =>
    exact absurd hres
      (hydrate_players_fails net region inc player label accs hne hsplit
        roster hmem hacc cache hcache res)

/-- C1 amended witness: at the concrete roster rosterOneBad the hypotheses
hold and hydration aborts with some error. -/
theorem c1_bad_label_aborts_hydration_witness :
    ((("bob", ["Bad", "Good2#TAG"]) ∈ rosterOneBad) ∧ "Bad" ∈ ["Bad", "Good2#TAG"]) ∧
    ∃ e, hydrate_players_accounts netOk "europe" true [] rosterOneBad = .error e := by
  refine ⟨⟨by decide, by decide⟩, ?_⟩
  exact c1_bad_label_aborts_hydration netOk "europe" true [] rosterOneBad
    "bob" "Bad" ["Bad", "Good2#TAG"] (by decide) (by decide) (by decide)
    (by decide) (by decide)

/-- C1 counterexample: at rosterOneBad, where only the single account "Bad"
of player bob is unsplittable and the network resolves every splittable
label, hydration does not keep the failure local to that one account: the
whole run aborts with the resolution error and no identities are produced
for alice or for bob's other account. -/
theorem c1_counterexample :
    hydrate_players_accounts netOk "europe" true [] rosterOneBad =
      .error (.resolutionError "Bad") := by decide

/-- C8: a cached identity entry is used only when it is a JSON object
carrying a truthy (non-empty) puuid: on such a valid hit at key
region:label the resolver returns the cached identity with zero network
calls and leaves the cache unchanged, while for any other cached value
(or none at all) the account is resolved over the network, the fetched
payload stored under the key, and exactly one network call made. -/
theorem c8_cache_hit_no_network (net : IdNet) (region : String) (inc : Bool)
    (player label : String) (cache : Cache) :
    (∀ d : IdsDict, label ≠ "" →
      cacheGet cache (region ++ ":" ++ label) = some (.dict d) →
      truthyStr d.puuid = true →
      hydrate_account net region inc player cache label =
        .ok (mkHydrated label d inc, cache, 0)) ∧
    (∀ (nt : String × String) (d : IdsDict), label ≠ "" →
      cacheHit (cacheGet cache (region ++ ":" ++ label)) = none →
      split_label label none = some nt → net nt.1 nt.2 = .ok d →
      hydrate_account net region inc player cache label =
        .ok (mkHydrated label d inc,
          cacheSet cache (region ++ ":" ++ label) (.dict d), 1)) := by
  constructor
  · intro d hne hget htr
    simp [hydrate_account, hne, hget, cacheHit, htr]
  · intro nt d hne hmiss hsa hn
    simp [hydrate_account, hne, hmiss, hsa, hn]

/-- C8 witness: with the pre-seeded cache of cacheSeeded the valid hit for
europe:Name#TAG is returned unchanged with zero network calls, and from an
empty cache the same label is fetched, stored and counted as one call. -/
theorem c8_cache_hit_no_network_witness :
    hydrate_account netOk "europe" true "p" cacheSeeded "Name#TAG" =
      .ok (⟨"Name#TAG", some "Name", some "TAG", some "P-123"⟩, cacheSeeded, 0) ∧
    hydrate_account netOk "europe" true "p" [] "Name#TAG" =
      .ok (⟨"Name#TAG", some "Name", some "TAG", some "PUUID-1"⟩,
        [("europe:Name#TAG", .dict ⟨some "Name", some "TAG", some "PUUID-1"⟩)], 1) := by
  have h := c8_cache_hit_no_network netOk "europe" true "p" "Name#TAG" cacheSeeded
  have h2 := c8_cache_hit_no_network netOk "europe" true "p" "Name#TAG" []
  refine ⟨?_, ?_⟩
  · have := h.1 ⟨some "Name", some "TAG", some "P-123"⟩ (by decide) (by decide) (by decide)
    simpa using this
  · have := h2.2 ("Name", "TAG") ⟨some "Name", some "TAG", some "PUUID-1"⟩
      (by decide) (by decide) (by decide) (by decide)
    simpa using this

/-- C2 counterexample: for scripted endpoint responses that are a 503
followed by a 200, none of the three stats operations succeeds with the
result of the 200 body: each fails at once on the first 503 via
raise_for_status, with no retry through the rate-limited fetcher. -/
theorem c2_counterexample :
    count_soloq (some "P") countT503 = .error (.httpError 503) ∧
    count_soloq (some "P") countT503 ≠ .ok 2 ∧
    get_current_elo (some "P") eloT503 = .error (.httpError 503) ∧
    get_last_game_time (some "P") idsT503 matchT200 fmtConst =
      .error (.httpError 503) := by
  exact ⟨by decide, by decide, by decide, by decide⟩

/-- C2 amended: the three per-account stats operations issue their HTTP
requests directly, not through the rate-limited fetcher: whenever the
first scripted response for the operation's request is a 503, the
operation fails at once with that status and never reaches a later 200;
its failure is absorbed only per account by the aggregator. -/
theorem c2_stats_ops_no_retry (p : Option String)
    (ct : Nat → Nat × List String) (et : Nat → Nat × List LeagueEntry)
    (it : Nat → Nat × List String) (mt : Nat → Nat × Option Nat) (fmt : Nat → String)
    (hp : truthyStr p = true)
    (hc : (ct 0).1 = 503) (he : (et 0).1 = 503) (hi : (it 0).1 = 503) :
    count_soloq p ct = .error (.httpError 503) ∧
    get_current_elo p et = .error (.httpError 503) ∧
    get_last_game_time p it mt fmt = .error (.httpError 503) := by
  refine ⟨?_, ?_, ?_⟩
  · simp [count_soloq, hp, hc]
  · simp [get_current_elo, hp, he]
  · simp [get_last_game_time, hp, hi]

/-- C2 amended witness: the concrete 503-then-200 scripts satisfy the
hypotheses and all three operations fail with the 503. -/
theorem c2_stats_ops_no_retry_witness :
    count_soloq (some "Q") countT503 = .error (.httpError 503) ∧
    get_current_elo (some "Q") eloT503 = .error (.httpError 503) ∧
    get_last_game_time (some "Q") idsT503 matchT200 fmtConst =
      .error (.httpError 503) := by
  exact c2_stats_ops_no_retry (some "Q") countT503 eloT503 idsT503 matchT200 fmtConst
    (by decide) (by decide) (by decide) (by decide)

/-! Order lemmas for the parsed rank keys. -/

theorem keyLE_refl (a : Int × Int × Int) : keyLE a a := by
  unfold keyLE
  omega

theorem keyLE_trans (a b c : Int × Int × Int) (h1 : keyLE a b) (h2 : keyLE b c) :
    keyLE a c := by
  unfold keyLE at *
  omega

theorem keyGT_false_iff (a b : Int × Int × Int) : keyGT a b = false ↔ keyLE a b := by
  unfold keyGT keyLE
  simp only [Bool.or_eq_false_iff, Bool.and_eq_false_iff, decide_eq_false_iff_not,
    Int.not_lt, decide_eq_true_eq]
  omega

theorem keyGT_true_le (a b : Int × Int × Int) (h : keyGT a b = true) : keyLE b a := by
  unfold keyGT at h
  simp only [Bool.or_eq_true, Bool.and_eq_true, decide_eq_true_eq] at h
  unfold keyLE
  omega

/-- The Python max fold returns an element of the list whose key every
element is lexicographically at most. -/
theorem pyMaxBy_spec (p : (Int × Int × Int) × String) (ps : List ((Int × Int × Int) × String)) :
    pyMaxBy p ps ∈ p :: ps ∧ ∀ x ∈ p :: ps, keyLE x.1 (pyMaxBy p ps).1 := by
  induction ps generalizing p with
  | nil =>
    refine ⟨List.mem_cons_self p [], ?_⟩
    intro x hx
    rw [List.mem_singleton.mp hx]
    exact keyLE_refl _
  | cons y ys ih =>
    rw [show pyMaxBy p (y :: ys) = pyMaxBy (if keyGT y.1 p.1 then y else p) ys from rfl]
    by_cases hgt : keyGT y.1 p.1 = true
    · rw [if_pos hgt]
      obtain ⟨hm, hall⟩ := ih y
      refine ⟨?_, ?_⟩
      · rcases List.mem_cons.mp hm with he | hm2
        · rw [he]; exact List.mem_cons_of_mem p (List.mem_cons_self y ys)
        · exact List.mem_cons_of_mem p (List.mem_cons_of_mem y hm2)
      · intro x hx
        rcases List.mem_cons.mp hx with he | hx2
        · rw [he]
          exact keyLE_trans _ _ _ (keyGT_true_le _ _ hgt) (hall y (List.mem_cons_self y ys))
        · exact hall x hx2
    · rw [if_neg hgt]
      have hf : keyGT y.1 p.1 = false := by simpa using hgt
      obtain ⟨hm, hall⟩ := ih p
      refine ⟨?_, ?_⟩
      · rcases List.mem_cons.mp hm with he | hm2
        · rw [he]; exact List.mem_cons_self p (y :: ys)
        · exact List.mem_cons_of_mem p (List.mem_cons_of_mem y hm2)
      · intro x hx
        rcases List.mem_cons.mp hx with he | hx2
        · rw [he]
          exact hall p (List.mem_cons_self p ys)
        · rcases List.mem_cons.mp hx2 with he2 | hx3
          · rw [he2]
            exact keyLE_trans _ _ _ ((keyGT_false_iff _ _).mp hf)
              (hall p (List.mem_cons_self p ys))
          · exact hall x (List.mem_cons_of_mem p hx3)

/-- What membership in the filtered, key-paired list of max_elo means. -/
theorem mem_parsed_iff (l : List String) (x : (Int × Int × Int) × String) :
    x ∈ l.filterMap (fun s =>
        let key := parse_elo s
        if 0 ≤ key.1 then some (key, s) else none) ↔
      x.2 ∈ l ∧ x.1 = parse_elo x.2 ∧ 0 ≤ (parse_elo x.2).1 := by
  rw [List.mem_filterMap]
  constructor
  · rintro ⟨a, ha, hfa⟩
    by_cases hv : 0 ≤ (parse_elo a).1
    · simp only [hv, if_pos, Option.some.injEq] at hfa
      rw [← hfa]
      exact ⟨ha, rfl, hv⟩
    · simp only [hv, if_neg, if_false] at hfa
      exact Option.noConfusion hfa
  · rintro ⟨hmem, hkey, hv⟩
    refine ⟨x.2, hmem, ?_⟩
    show (if 0 ≤ (parse_elo x.2).1 then some (parse_elo x.2, x.2) else none) = some x
    rw [if_pos hv, ← hkey]

/-- When max_elo returns a string it is an input with a valid key that is
lexicographically greatest among the valid inputs. -/
theorem max_elo_some_spec (l : List String) (s : String) (hm : max_elo l = some s) :
    s ∈ l ∧ 0 ≤ (parse_elo s).1 ∧
      ∀ t ∈ l, 0 ≤ (parse_elo t).1 → keyLE (parse_elo t) (parse_elo s) := by
  cases hp : l.filterMap (fun s =>
      let key := parse_elo s
      if 0 ≤ key.1 then some (key, s) else none) with
  | nil =>
    rw [show max_elo l = none from by simp only [max_elo, hp]] at hm
    exact Option.noConfusion hm
  | cons p ps =>
    have hml : max_elo l = some (pyMaxBy p ps).2 := by simp only [max_elo, hp]
    have hs : (pyMaxBy p ps).2 = s := Option.some.inj (hml.symm.trans hm)
    obtain ⟨hmem, hall⟩ := pyMaxBy_spec p ps
    rw [← hp] at hmem
    obtain ⟨hsl, hkey, hv⟩ := (mem_parsed_iff l (pyMaxBy p ps)).mp hmem
    refine ⟨?_, ?_, ?_⟩
    · rw [← hs]; exact hsl
    · rw [← hs]; exact hv
    · intro t ht htv
      have hin : (parse_elo t, t) ∈ p :: ps := by
        rw [← hp]
        exact (mem_parsed_iff l (parse_elo t, t)).mpr ⟨ht, rfl, htv⟩
      have h2 := hall (parse_elo t, t) hin
      rw [← hs, ← hkey]
      exact h2

/-- max_elo returns none exactly when no input parses to a valid key. -/
theorem max_elo_none_iff (l : List String) :
    max_elo l = none ↔ ∀ t ∈ l, (parse_elo t).1 < 0 := by
  cases hp : l.filterMap (fun s =>
      let key := parse_elo s
      if 0 ≤ key.1 then some (key, s) else none) with
  | nil =>
    have hml : max_elo l = none := by simp only [max_elo, hp]
    constructor
    · intro _ t ht
      by_contra hge
      have hv : 0 ≤ (parse_elo t).1 := by omega
      have hmm : (parse_elo t, t) ∈ l.filterMap (fun s =>
          let key := parse_elo s
          if 0 ≤ key.1 then some (key, s) else none) :=
        (mem_parsed_iff l (parse_elo t, t)).mpr ⟨ht, rfl, hv⟩
      rw [hp] at hmm
      cases hmm
    · intro _
      exact hml
  | cons p ps =>
    have hml : max_elo l = some (pyMaxBy p ps).2 := by simp only [max_elo, hp]
    have hmem : p ∈ l.filterMap (fun s =>
        let key := parse_elo s
        if 0 ≤ key.1 then some (key, s) else none) := by
      rw [hp]
      exact List.mem_cons_self p ps
    obtain ⟨hsl, -, hv⟩ := (mem_parsed_iff l p).mp hmem
    constructor
    · intro h
      rw [hml] at h
      exact Option.noConfusion h
    · intro hall
      exact absurd (hall p.2 hsl) (by omega)

/-- C5: whenever max_elo returns a string, it is one of the inputs, its
key is valid, and its key is lexicographically at least the key of every
input that parses to a valid (non-sentinel) key; max_elo returns none
exactly when no input parses to a valid key; and on the concrete example
list the GOLD IV entry is selected. -/
theorem c5_max_elo_returns_greatest :
    (∀ (l : List String) (s : String), max_elo l = some s →
      s ∈ l ∧ 0 ≤ (parse_elo s).1 ∧
        ∀ t ∈ l, 0 ≤ (parse_elo t).1 → keyLE (parse_elo t) (parse_elo s)) ∧
    (∀ l : List String, max_elo l = none ↔ ∀ t ∈ l, (parse_elo t).1 < 0) ∧
    max_elo ["SILVER III - 40 LP", "GOLD IV - 10 LP", "Unranked"] =
      some "GOLD IV - 10 LP" := by
  exact ⟨max_elo_some_spec, max_elo_none_iff, by decide⟩

/-- C6: the refutation point of the tier ordering in parse_elo: a
GRANDMASTER rank string parses with tier rank 7, the index of MASTER,
because the tier search loop of lines 242-246 finds the substring MASTER
inside GRANDMASTER first, so a GRANDMASTER string never gets the tier
index 8 that TIER_RANK assigns to GRANDMASTER and never ranks strictly
above a MASTER string. -/
theorem c6_grandmaster_shadowed_by_master :
    parse_elo "GRANDMASTER I - 12 LP" = (7, 5, 0) ∧
    parse_elo "MASTER I - 12 LP" = (7, 5, 0) ∧
    TIER_RANK "MASTER" = 7 ∧ TIER_RANK "GRANDMASTER" = 8 := by
  exact ⟨by decide, by decide, by decide, by decide⟩

/-- C7: the league-points round-trip fails: the current-rank operation
formats GOLD IV at 10 LP as "GOLD IV - 10 LP", but parse_elo reads league
points only from a parenthesized "(n LP)" pattern the formatter never
emits, so the parsed key carries 0 league points, not 10. -/
theorem c7_lp_round_trip_fails :
    rank_string (some "GOLD") (some "IV") (some 10) = "GOLD IV - 10 LP" ∧
    parse_elo "GOLD IV - 10 LP" = (3, 1, 0) ∧
    parse_elo "GOLD IV (10 LP)" = (3, 1, 10) := by
  exact ⟨by decide, by decide, by decide⟩

/-- The accumulator-generalized width equivalence for one column: as long
as the starting accumulator is at least 4 (the length of the text "None"),
measuring None cells as the empty string and measuring them as their
rendered text "None" fold to the same maximum. -/
theorem foldWidth_eq (get : ReportRow → Option String) (rows : List ReportRow) :
    ∀ a : Nat, 4 ≤ a →
      rows.foldl (fun maxw r => max maxw (widthVal (get r)).length) a =
        rows.foldl (fun maxw r => max maxw (pyStr (get r)).length) a := by
  induction rows with
  | nil => intro a _; rfl
  | cons r rest ih =>
    intro a ha
    simp only [List.foldl_cons]
    cases hv : get r with
    | none =>
      have h1 : a ⊔ (widthVal none).length = a := max_eq_left (Nat.zero_le _)
      have h4 : (pyStr none).length = 4 := rfl
      have h2 : a ⊔ (pyStr none).length = a := by
        rw [h4]
        exact max_eq_left ha
      rw [h1, h2]
      exact ih a ha
    | some s =>
      exact ih (a ⊔ (widthVal (some s)).length) (le_trans ha (le_max_left a _))

/-- One column's code width equals the claim-side width whenever the
header is at least as long as the text "None". -/
theorem colWidth_eq_spec (h : String) (get : ReportRow → Option String)
    (rows : List ReportRow) (hh : 4 ≤ h.length) :
    colWidth h get rows = colWidthSpec h get rows := by
  unfold colWidth colWidthSpec
  exact foldWidth_eq get rows h.length hh

/-- C9: for every list of report rows the column widths the renderer
computes equal the claim-side widths (the maximum of the header label
length and every row's rendered cell text length), and the output is the
header line, a separator of dashes of exactly those widths, and one line
per row, columns joined by two blanks with the two match-count columns
right-justified and the rest left-justified. -/
theorem c9_report_layout (rows : List ReportRow) :
    report_widths rows = report_widthsSpec rows ∧
    format_players_report rows =
      String.intercalate "\n"
        ([header_line (report_widthsSpec rows), sep_line (report_widthsSpec rows)] ++
          rows.map (row_line (report_widthsSpec rows))) := by
  have hw : report_widths rows = report_widthsSpec rows := by
    unfold report_widths report_widthsSpec report_headers report_cols
    simp only [List.zip_cons_cons, List.map_cons, List.zip_nil_right, List.map_nil]
    rw [colWidth_eq_spec "Player" _ rows (by decide),
      colWidth_eq_spec "Games 24 Hours" _ rows (by decide),
      colWidth_eq_spec "Games 7 days" _ rows (by decide),
      colWidth_eq_spec "Last Game" _ rows (by decide),
      colWidth_eq_spec "Current Elo" _ rows (by decide),
      colWidth_eq_spec "Main Account" _ rows (by decide),
      colWidth_eq_spec "Reha happy" _ rows (by decide)]
  refine ⟨hw, ?_⟩
  unfold format_players_report
  rw [hw]

/-- C10: for a player with at least one account, all of whose rank lookups
succeed and return the literal "Unranked" string, the aggregated best-rank
value is Python None, not the "Unranked" sentinel; and the sentinel
aggregate arises only when the collected candidate list is empty, that is
when every lookup raised or returned a falsy string. -/
theorem c10_all_unranked_gives_none (results : List (Option String))
    (hne : results ≠ [])
    (hall : ∀ r ∈ results, r = some "Unranked") :
    player_best_elo results = none ∧
    (∀ rs : List (Option String), player_best_elo rs = some "Unranked" →
      player_acc_elos rs = []) := by
  constructor
  · have hmem : ∀ t ∈ player_acc_elos results, t = "Unranked" := by
      intro t ht
      unfold player_acc_elos at ht
      obtain ⟨r, hr, hfr⟩ := List.mem_filterMap.mp ht
      rw [hall r hr] at hfr
      have : "Unranked" ≠ "" := by decide
      simp only [this, if_neg, if_true] at hfr
      exact (Option.some.inj hfr).symm
    have hnonempty : player_acc_elos results ≠ [] := by
      cases results with
      | nil => exact absurd rfl hne
      | cons r rest =>
        have h1 := hall r (List.mem_cons_self r rest)
        unfold player_acc_elos
        rw [h1]
        simp only [List.filterMap_cons]
        have : "Unranked" ≠ "" := by decide
        simp only [this, if_neg, if_true]
        exact List.cons_ne_nil _ _
    have hnone : max_elo (player_acc_elos results) = none := by
      rw [max_elo_none_iff]
      intro t ht
      rw [hmem t ht]
      decide
    unfold player_best_elo
    rw [if_neg hnonempty]
    exact hnone
  · intro rs hbest
    by_cases hacc : player_acc_elos rs = []
    · exact hacc
    · exfalso
      unfold player_best_elo at hbest
      rw [if_neg hacc] at hbest
      obtain ⟨-, hv, -⟩ := max_elo_some_spec _ _ hbest
      have : parse_elo "Unranked" = (-1, -1, -1) := by decide
      rw [this] at hv
      exact absurd hv (by decide)

/-- C10 witness: two successful "Unranked" lookups aggregate to Python
None, while an empty candidate list (both lookups failed) aggregates to
the "Unranked" sentinel. -/
theorem c10_all_unranked_gives_none_witness :
    player_best_elo [some "Unranked", some "Unranked"] = none ∧
    player_best_elo [none, none] = some "Unranked" := by
  have h := c10_all_unranked_gives_none [some "Unranked", some "Unranked"]
    (by decide) (by decide)
  exact ⟨h.1, by decide⟩

end SoloQ
